import Mathlib

/-
  Verification of db/large_data_handler.cc (ScyllaDB large-data tracking).

  The C++ code is shallowly embedded:
  * the handler's threshold policy (maybe_record_large_partitions) is a pure
    function returning the verdict, the updated handler, and the ordered list
    of micro-events (limiter acquire, backend record, limiter release, return
    of the verdict) its returned future performs;
  * the delete fan-out (maybe_delete_large_data_entries) returns the list of
    tracking-table deletes that its when_all joins: the returned completion
    resolves exactly when all listed deletes have completed;
  * try_record / delete_large_data_entries are modelled by the CQL statement
    text they build and by a run function mapping the availability of the
    query facility (db::qctx) and the outcome of execute_cql to the triple
    (completes successfully, number of queries issued, failure warning logs);
    a dereference of an unavailable facility is modelled as none;
  * the asynchronous interplay of with_sem, the running flag and stop() is a
    labelled transition system over traces of actions.
-/

namespace LargeData

/-- std numeric limits of uint64_t, max(): the sentinel threshold that never trips. -/
def UINT64_MAX : Nat := 2 ^ 64 - 1

/-- large_data_handler::partition_above_threshold: the verdict returned by
maybe_record_large_partitions. -/
structure partition_above_threshold where
  size : Bool := false
  rows : Bool := false
deriving Repr, DecidableEq

/-- The handler stats (only the counter used by the partition path appears in
the source fragment). -/
structure handler_stats where
  partitions_bigger_than_threshold : Nat := 0
deriving Repr, DecidableEq

/-- large_data_handler: four immutable thresholds, the running flag and stats.
The semaphore is modelled separately by the trace machine below. -/
structure large_data_handler where
  partition_threshold_bytes : Nat
  row_threshold_bytes : Nat
  cell_threshold_bytes : Nat
  rows_count_threshold : Nat
  running : Bool := false
  stats : handler_stats := {}
deriving Repr, DecidableEq

/-- nop_large_data_handler: all four thresholds at uint64 max, and start()
called in the constructor. -/
def nop_large_data_handler : large_data_handler :=
  { partition_threshold_bytes := UINT64_MAX
    row_threshold_bytes := UINT64_MAX
    cell_threshold_bytes := UINT64_MAX
    rows_count_threshold := UINT64_MAX
    running := true }

/-- Micro-events performed by the future returned by
maybe_record_large_partitions, in order. -/
inductive record_event
  | semAcquire
  | recordLargePartitions (partition_size rows : Nat)
  | semRelease
  | ret (v : partition_above_threshold)
deriving Repr, DecidableEq

/-- large_data_handler::maybe_record_large_partitions. Returns none when the
assert(running()) fires; otherwise the verdict, the updated handler and the
ordered events of the returned future. In the source: compute the verdict,
bump the counter if size is over, then either with_sem(record).then(return
verdict) or a ready future carrying the zero verdict. -/
def maybe_record_large_partitions (h : large_data_handler)
    (partition_size rows : Nat) :
    Option (partition_above_threshold × large_data_handler × List record_event) :=
  if h.running then
    let above : partition_above_threshold :=
      { size := decide (partition_size > h.partition_threshold_bytes)
        rows := decide (rows > h.rows_count_threshold) }
    let h' : large_data_handler :=
      if above.size then
        { h with stats := { partitions_bigger_than_threshold :=
            h.stats.partitions_bigger_than_threshold + 1 } }
      else h
    if above.size || above.rows then
      some (above, h',
        [.semAcquire, .recordLargePartitions partition_size rows, .semRelease, .ret above])
    else
      some (above, h', [.ret above])
  else
    none

/-- sstables::large_data_type (the four statistics consulted by the fragment). -/
inductive large_data_type
  | partition_size
  | row_size
  | cell_size
  | rows_in_partition
deriving Repr, DecidableEq

/-- The large-data stat entry of an sstable: only the above_threshold field is
consulted here. -/
structure large_data_stats_entry where
  above_threshold : Bool
deriving Repr, DecidableEq

/-- The slice of sstables::sstable used by maybe_delete_large_data_entries:
get_large_data_stat per large_data_type (optional entry). -/
structure sstable where
  get_large_data_stat : large_data_type → Option large_data_stats_entry

/-- The local above_threshold lambda: entry && entry->above_threshold. -/
def stat_above_threshold (sst : sstable) (t : large_data_type) : Bool :=
  match sst.get_large_data_stat t with
  | some e => e.above_threshold
  | none => false

/-- The three system tracking tables named by db::system_keyspace. -/
inductive tracking_table
  | LARGE_PARTITIONS
  | LARGE_ROWS
  | LARGE_CELLS
deriving Repr, DecidableEq

/-- The three conditional limiter-gated deletes of the delete path, in source
order: large_partitions when partition_size or rows_in_partition is above
threshold, large_rows when row_size is, large_cells when cell_size is. -/
def delete_fanout (sst : sstable) : List tracking_table :=
  (if stat_above_threshold sst .partition_size
      || stat_above_threshold sst .rows_in_partition then
    [tracking_table.LARGE_PARTITIONS] else [])
  ++ (if stat_above_threshold sst .row_size then
        [tracking_table.LARGE_ROWS] else [])
  ++ (if stat_above_threshold sst .cell_size then
        [tracking_table.LARGE_CELLS] else [])

/-- large_data_handler::maybe_delete_large_data_entries. Returns none when the
assert(running()) fires; otherwise the list of limiter-gated deletes that the
final when_all joins: the returned future resolves exactly when all of them
have completed. -/
def maybe_delete_large_data_entries (h : large_data_handler) (sst : sstable) :
    Option (List tracking_table) :=
  if h.running then some (delete_fanout sst) else none

/-- The tracking-table category of an sstable flag combination, as the delete
path maps it: the partitions table covers both partition-level statistics
(partition_size and rows_in_partition). -/
def category_flagged (sst : sstable) : tracking_table → Bool
  | .LARGE_PARTITIONS =>
      stat_above_threshold sst .partition_size
        || stat_above_threshold sst .rows_in_partition
  | .LARGE_ROWS => stat_above_threshold sst .row_size
  | .LARGE_CELLS => stat_above_threshold sst .cell_size

/-- int64_t(x) applied to a uint64 value (two's complement reinterpretation),
as in try_record's size argument. -/
def toInt64 (n : Nat) : Int :=
  let m : Nat := n % 2 ^ 64
  if m < 2 ^ 63 then (m : Int) else (m : Int) - 2 ^ 64

/-- The ", f1, f2, ..." fragment try_record builds from extra_fields. -/
def extra_fields_str (fields : List String) : String :=
  fields.foldl (fun acc f => acc ++ ", " ++ f) ""

/-- The ", ?, ?, ..." fragment try_record builds, one placeholder per extra field. -/
def extra_values_str (fields : List String) : String :=
  fields.foldl (fun acc _ => acc ++ ", ?") ""

/-- The CQL INSERT statement try_record formats (the req local). -/
def try_record_stmt (large_table : String) (extra_fields : List String) : String :=
  "INSERT INTO system.large_" ++ large_table
    ++ "s (keyspace_name, table_name, sstable_name, " ++ large_table
    ++ "_size, partition_key, compaction_time" ++ extra_fields_str extra_fields
    ++ ") VALUES (?, ?, ?, ?, ?, ?" ++ extra_values_str extra_fields
    ++ ") USING TTL 2592000"

/-- A failure warning log entry with its full context: the tracking table or
category, keyspace name, table name, sstable file name, and the error. -/
structure warn_log where
  large_table : String
  ks_name : String
  cf_name : String
  sstable_name : String
  err : String
deriving Repr, DecidableEq

/-- Outcome of running one backend query: whether the caller observes success,
how many queries were issued, and the failure warning logs produced. -/
structure run_result where
  completes_ok : Bool
  queries_issued : Nat
  failure_logs : List warn_log
deriving Repr, DecidableEq

/-- execute_cql(...).discard_result().handle_exception(...): the query is
issued once; an exception is swallowed into one warning log carrying the full
context, and the caller observes success either way. -/
def run_logged_query (large_table ks_name cf_name sstable_name : String)
    (query_result : Except String Unit) : run_result :=
  match query_result with
  | .ok _ => { completes_ok := true, queries_issued := 1, failure_logs := [] }
  | .error e =>
      { completes_ok := true, queries_issued := 1
        failure_logs := [⟨large_table, ks_name, cf_name, sstable_name, e⟩] }

/-- try_record's control flow around the query: when db::qctx is unavailable it
returns a ready future having issued nothing (the FIXME check at the top);
otherwise it issues the query with swallow-and-log failure handling. -/
def try_record_run (qctx_available : Bool)
    (large_table ks_name cf_name sstable_name : String)
    (query_result : Except String Unit) : run_result :=
  if !qctx_available then
    { completes_ok := true, queries_issued := 0, failure_logs := [] }
  else
    run_logged_query large_table ks_name cf_name sstable_name query_result

/-- cql_table_large_data_handler::delete_large_data_entries' control flow
around the query: the source dereferences db::qctx unconditionally (there is
no availability check), so an unavailable facility is a failed dereference,
modelled as none; otherwise the same swallow-and-log handling as try_record. -/
def delete_large_data_entries_run (qctx_available : Bool)
    (large_table_name ks_name cf_name sstable_name : String)
    (query_result : Except String Unit) : Option run_result :=
  if !qctx_available then
    none
  else
    some (run_logged_query large_table_name ks_name cf_name sstable_name query_result)

/-- The tracking-row payload persisted for one large row (the bound values
beyond the common keyspace/table/sstable/key/timestamp prefix): the size and
the clustering_key column value, which is null when absent. -/
structure row_record where
  row_size : Int
  clustering_key : Option String
deriving Repr, DecidableEq

/-- cql_table_large_data_handler::record_large_rows: with a clustering key it
records its text rendering and logs with desc "row"; without one it binds a
null clustering_key value and logs with desc "static row". Returns the
persisted payload and the desc used in the warning log line. -/
def record_large_rows (row_size : Nat) (clustering_key : Option String) :
    row_record × String :=
  match clustering_key with
  | some ck => ({ row_size := toInt64 row_size, clustering_key := some ck }, "row")
  | none => ({ row_size := toInt64 row_size, clustering_key := none }, "static row")

/-
  Trace machine for the asynchronous behaviour of the limiter (_sem, capacity
  max_concurrency), the running flag and stop(). Each logical operation
  (record or delete) is identified by a Nat. Actions:
  * opStart i    : the operation passes its assert(running());
  * opAssertFail i : the operation is invoked while stopped, the assert fires;
  * opAcquire i  : with_sem acquires one unit for the operation;
  * opBackend i  : the operation issues its backend call (record/delete);
  * opRelease i  : with_sem releases the unit on completion;
  * stopImmediate: stop() on an already stopped handler, a ready future;
  * stopBegin    : stop() on a running handler flips _running to false;
  * stopComplete : stop's _sem.wait(max_concurrency) resolves.
-/
inductive action
  | opStart (i : Nat)
  | opAssertFail (i : Nat)
  | opAcquire (i : Nat)
  | opBackend (i : Nat)
  | opRelease (i : Nat)
  | stopImmediate
  | stopBegin
  | stopComplete
deriving Repr, DecidableEq

/-- The shared state: the running flag, whether stop has begun draining, the
available semaphore units, the operations that passed the assert, and the
operations currently holding a unit. -/
structure sys where
  running : Bool
  stopping : Bool
  sem : Nat
  started : List Nat
  held : List Nat
deriving Repr, DecidableEq

/-- The state after start(): running, full semaphore capacity, no operations. -/
def init (cap : Nat) : sys :=
  { running := true, stopping := false, sem := cap, started := [], held := [] }

/-- One transition, parameterized by the semaphore capacity max_concurrency. -/
inductive step (cap : Nat) : sys → action → sys → Prop
  | op_start (s : sys) (i : Nat) :
      s.running = true →
      step cap s (.opStart i) { s with started := i :: s.started }
  | op_assert_fail (s : sys) (i : Nat) :
      s.running = false →
      step cap s (.opAssertFail i) s
  | op_acquire (s : sys) (i : Nat) :
      i ∈ s.started → i ∉ s.held → 1 ≤ s.sem →
      step cap s (.opAcquire i) { s with sem := s.sem - 1, held := i :: s.held }
  | op_backend (s : sys) (i : Nat) :
      i ∈ s.held →
      step cap s (.opBackend i) s
  | op_release (s : sys) (i : Nat) :
      i ∈ s.held →
      step cap s (.opRelease i) { s with sem := s.sem + 1, held := s.held.erase i }
  | stop_immediate (s : sys) :
      s.running = false →
      step cap s .stopImmediate s
  | stop_begin (s : sys) :
      s.running = true →
      step cap s .stopBegin { s with running := false, stopping := true }
  | stop_complete (s : sys) :
      s.stopping = true → s.sem = cap →
      step cap s .stopComplete s

/-- A trace of transitions. -/
inductive steps (cap : Nat) : sys → List action → sys → Prop
  | nil (s : sys) : steps cap s [] s
  | cons (s1 : sys) (a : action) (s2 : sys) (tr : List action) (s3 : sys) :
      step cap s1 a s2 → steps cap s2 tr s3 → steps cap s1 (a :: tr) s3

/-- The semaphore invariant: available units plus units held equal capacity,
and no operation holds more than one unit. -/
def sem_inv (cap : Nat) (s : sys) : Prop :=
  s.sem + s.held.length = cap ∧ s.held.Nodup

theorem sem_inv_init (cap : Nat) : sem_inv cap (init cap) := by
  constructor <;> simp [init]

theorem sem_inv_step {cap : Nat} {s1 : sys} {a : action} {s2 : sys}
    (hinv : sem_inv cap s1) (hst : step cap s1 a s2) : sem_inv cap s2 := by
  obtain ⟨hlen, hnd⟩ := hinv
  cases hst with
  | op_start i h => exact ⟨hlen, hnd⟩
  | op_assert_fail i h => exact ⟨hlen, hnd⟩
  | op_acquire i hs hh hsem =>
      refine ⟨?_, List.nodup_cons.mpr ⟨hh, hnd⟩⟩
      show s1.sem - 1 + (i :: s1.held).length = cap
      simp only [List.length_cons]
      omega
  | op_backend i h => exact ⟨hlen, hnd⟩
  | op_release i h =>
      refine ⟨?_, List.Nodup.erase i hnd⟩
      show s1.sem + 1 + (s1.held.erase i).length = cap
      rw [List.length_erase_of_mem h]
      have hpos : 1 ≤ s1.held.length := List.length_pos.mpr (List.ne_nil_of_mem h)
      omega
  | stop_immediate h => exact ⟨hlen, hnd⟩
  | stop_begin h => exact ⟨hlen, hnd⟩
  | stop_complete h1 h2 => exact ⟨hlen, hnd⟩

theorem sem_inv_steps {cap : Nat} {s1 : sys} {tr : List action} {s2 : sys}
    (hinv : sem_inv cap s1) (hst : steps cap s1 tr s2) : sem_inv cap s2 := by
  induction hst with
  | nil s => exact hinv
  | cons s1 a s2 tr s3 h1 h2 ih => exact ih (sem_inv_step hinv h1)

/-- If an operation holds a unit and no longer holds it after a trace, the
trace contains its release. -/
theorem release_mem_of_held {cap : Nat} {i : Nat} {s1 : sys} {tr : List action}
    {s2 : sys} (hst : steps cap s1 tr s2) :
    i ∈ s1.held → i ∉ s2.held → action.opRelease i ∈ tr := by
  induction hst with
  | nil s => exact fun hheld hnot => absurd hheld hnot
  | cons s1 a s2 tr s3 h1 h2 ih =>
      intro hheld hnot
      by_cases hrel : a = action.opRelease i
      · exact hrel ▸ List.mem_cons_self _ _
      · refine List.mem_cons_of_mem _ (ih ?_ hnot)
        cases h1 with
        | op_start j h => exact hheld
        | op_assert_fail j h => exact hheld
        | op_acquire j hs hh hsem => exact List.mem_cons_of_mem _ hheld
        | op_backend j h => exact hheld
        | op_release j h =>
            have hne : i ≠ j := fun he => hrel (by rw [he])
            exact (List.mem_erase_of_ne hne).mpr hheld
        | stop_immediate h => exact hheld
        | stop_begin h => exact hheld
        | stop_complete h1 h2 => exact hheld

/-- Once the running flag is false it stays false, and no operation passes the
assert (no opStart action can step). -/
theorem stopped_stays_stopped {cap : Nat} {s1 : sys} {tr : List action}
    {s2 : sys} (hst : steps cap s1 tr s2) :
    s1.running = false → s2.running = false ∧ ∀ i, action.opStart i ∉ tr := by
  induction hst with
  | nil s => exact fun hr => ⟨hr, by simp⟩
  | cons s1 a s2 tr s3 h1 h2 ih =>
      intro hr
      have hr2 : s2.running = false := by
        cases h1 with
        | op_start i h => exact absurd (h.symm.trans hr) (by simp)
        | op_assert_fail i h => exact hr
        | op_acquire i hs hh hsem => exact hr
        | op_backend i h => exact hr
        | op_release i h => exact hr
        | stop_immediate h => exact hr
        | stop_begin h => exact absurd (h.symm.trans hr) (by simp)
        | stop_complete h1 h2 => exact hr
      obtain ⟨hfin, hnostart⟩ := ih hr2
      refine ⟨hfin, fun i hmem => ?_⟩
      rcases List.mem_cons.mp hmem with he | hmem2
      · subst he
        cases h1 with
        | op_start i h => exact absurd (h.symm.trans hr) (by simp)
      · exact hnostart i hmem2

/-- Splitting a trace derivation at a list append. -/
theorem steps_append_split {cap : Nat} {s1 : sys} {u v : List action} {s2 : sys}
    (hst : steps cap s1 (u ++ v) s2) :
    ∃ smid, steps cap s1 u smid ∧ steps cap smid v s2 := by
  induction u generalizing s1 with
  | nil => exact ⟨s1, steps.nil s1, hst⟩
  | cons a u ih =>
      cases hst
      rename_i s2' h1 h2
      obtain ⟨smid, hu, hv⟩ := ih h2
      exact ⟨smid, steps.cons _ _ _ _ _ h1 hu, hv⟩

/-- A running handler with partition-size threshold 1000 bytes and row-count
threshold 10, used to instantiate theorems at the spec's concrete scenario. -/
def sample_handler : large_data_handler :=
  { partition_threshold_bytes := 1000
    row_threshold_bytes := 1000
    cell_threshold_bytes := 1000
    rows_count_threshold := 10
    running := true }

/-- C2: while running, maybe_record_large_partitions returns the verdict with
size = partitionSize > partition-size threshold and rows = rowCount >
row-count threshold; when neither holds, the returned future only returns the
zero verdict (no limiter acquisition, no backend call); when either holds, the
backend record is invoked under the limiter and the verdict is returned only
after the record attempt completes (acquire, record, release, then return). -/
theorem maybe_record_verdict_spec (h : large_data_handler)
    (partition_size rows : Nat) (hr : h.running = true) :
    ∃ v h' evs,
      maybe_record_large_partitions h partition_size rows = some (v, h', evs) ∧
      (v.size = true ↔ partition_size > h.partition_threshold_bytes) ∧
      (v.rows = true ↔ rows > h.rows_count_threshold) ∧
      (v.size = false → v.rows = false → evs = [.ret v]) ∧
      (v.size = true ∨ v.rows = true →
        evs = [.semAcquire, .recordLargePartitions partition_size rows,
               .semRelease, .ret v]) := by
  by_cases hs : partition_size > h.partition_threshold_bytes
  · by_cases hw : rows > h.rows_count_threshold
    · refine ⟨{ size := true, rows := true },
        { h with stats := { partitions_bigger_than_threshold :=
            h.stats.partitions_bigger_than_threshold + 1 } },
        [.semAcquire, .recordLargePartitions partition_size rows,
         .semRelease, .ret { size := true, rows := true }],
        ?_, ?_, ?_, ?_, ?_⟩ <;> simp [maybe_record_large_partitions, hr, hs, hw]
    · refine ⟨{ size := true, rows := false },
        { h with stats := { partitions_bigger_than_threshold :=
            h.stats.partitions_bigger_than_threshold + 1 } },
        [.semAcquire, .recordLargePartitions partition_size rows,
         .semRelease, .ret { size := true, rows := false }],
        ?_, ?_, ?_, ?_, ?_⟩ <;> simp [maybe_record_large_partitions, hr, hs, hw]
  · by_cases hw : rows > h.rows_count_threshold
    · refine ⟨{ size := false, rows := true }, h,
        [.semAcquire, .recordLargePartitions partition_size rows,
         .semRelease, .ret { size := false, rows := true }],
        ?_, ?_, ?_, ?_, ?_⟩ <;> simp [maybe_record_large_partitions, hr, hs, hw]
    · refine ⟨{ size := false, rows := false }, h,
        [.ret { size := false, rows := false }],
        ?_, ?_, ?_, ?_, ?_⟩ <;> simp [maybe_record_large_partitions, hr, hs, hw]

/-- C2 witness: the spec's concrete scenario — threshold 1000 bytes, row-count
threshold 10, partition size 1500, row count 5. -/
theorem maybe_record_verdict_spec_witness :
    ∃ v h' evs,
      maybe_record_large_partitions sample_handler 1500 5 = some (v, h', evs) ∧
      (v.size = true ↔ 1500 > sample_handler.partition_threshold_bytes) ∧
      (v.rows = true ↔ 5 > sample_handler.rows_count_threshold) ∧
      (v.size = false → v.rows = false → evs = [.ret v]) ∧
      (v.size = true ∨ v.rows = true →
        evs = [.semAcquire, .recordLargePartitions 1500 5,
               .semRelease, .ret v]) :=
  maybe_record_verdict_spec sample_handler 1500 5 rfl

/-- C3: the partitions-over-threshold counter increases by exactly one when
partitionSize exceeds the partition-size threshold and by zero otherwise; a
row-count-only violation leaves the stats unchanged while still putting the
backend record among the events of the returned future. -/
theorem partitions_counter_spec (h : large_data_handler)
    (partition_size rows : Nat) (hr : h.running = true) :
    ∃ v h' evs,
      maybe_record_large_partitions h partition_size rows = some (v, h', evs) ∧
      h'.stats.partitions_bigger_than_threshold =
        h.stats.partitions_bigger_than_threshold +
          (if partition_size > h.partition_threshold_bytes then 1 else 0) ∧
      (¬ partition_size > h.partition_threshold_bytes →
        rows > h.rows_count_threshold →
          h'.stats = h.stats ∧
          record_event.recordLargePartitions partition_size rows ∈ evs) := by
  by_cases hs : partition_size > h.partition_threshold_bytes
  · by_cases hw : rows > h.rows_count_threshold
    · refine ⟨{ size := true, rows := true },
        { h with stats := { partitions_bigger_than_threshold :=
            h.stats.partitions_bigger_than_threshold + 1 } },
        [.semAcquire, .recordLargePartitions partition_size rows,
         .semRelease, .ret { size := true, rows := true }],
        ?_, ?_, ?_⟩ <;> simp [maybe_record_large_partitions, hr, hs, hw]
    · refine ⟨{ size := true, rows := false },
        { h with stats := { partitions_bigger_than_threshold :=
            h.stats.partitions_bigger_than_threshold + 1 } },
        [.semAcquire, .recordLargePartitions partition_size rows,
         .semRelease, .ret { size := true, rows := false }],
        ?_, ?_, ?_⟩ <;> simp [maybe_record_large_partitions, hr, hs, hw]
  · by_cases hw : rows > h.rows_count_threshold
    · refine ⟨{ size := false, rows := true }, h,
        [.semAcquire, .recordLargePartitions partition_size rows,
         .semRelease, .ret { size := false, rows := true }],
        ?_, ?_, ?_⟩ <;> simp [maybe_record_large_partitions, hr, hs, hw]
    · refine ⟨{ size := false, rows := false }, h,
        [.ret { size := false, rows := false }],
        ?_, ?_, ?_⟩ <;> simp [maybe_record_large_partitions, hr, hs, hw]

/-- C3 witness: a row-count-only violation (size 500 under the 1000 threshold,
51 rows over the threshold of 10) leaves the counter unchanged while the
backend record is still issued. -/
theorem partitions_counter_spec_witness :
    ∃ v h' evs,
      maybe_record_large_partitions sample_handler 500 51 = some (v, h', evs) ∧
      h'.stats.partitions_bigger_than_threshold =
        sample_handler.stats.partitions_bigger_than_threshold +
          (if 500 > sample_handler.partition_threshold_bytes then 1 else 0) ∧
      (¬ 500 > sample_handler.partition_threshold_bytes →
        51 > sample_handler.rows_count_threshold →
          h'.stats = sample_handler.stats ∧
          record_event.recordLargePartitions 500 51 ∈ evs) :=
  partitions_counter_spec sample_handler 500 51 rfl

/-- C7: the nop handler is constructed with all four thresholds at the maximum
representable uint64 value and is running from construction; for every uint64
partition size and row count, maybe_record_large_partitions returns the zero
verdict, leaves the handler unchanged, and its future only returns — no
limiter acquisition and no backend call. -/
theorem nop_handler_never_records (partition_size rows : Nat)
    (hp : partition_size ≤ UINT64_MAX) (hw : rows ≤ UINT64_MAX) :
    nop_large_data_handler.running = true ∧
    nop_large_data_handler.partition_threshold_bytes = UINT64_MAX ∧
    nop_large_data_handler.rows_count_threshold = UINT64_MAX ∧
    maybe_record_large_partitions nop_large_data_handler partition_size rows =
      some ({ size := false, rows := false }, nop_large_data_handler,
            [.ret { size := false, rows := false }]) := by
  refine ⟨rfl, rfl, rfl, ?_⟩
  have hs : ¬ UINT64_MAX < partition_size := not_lt.mpr hp
  have hrw : ¬ UINT64_MAX < rows := not_lt.mpr hw
  simp [maybe_record_large_partitions, nop_large_data_handler, hs, hrw]

/-- C7 witness: at partition size one below the maximum representable value
and row count equal to it, the nop handler still returns the zero verdict with
no backend call. -/
theorem nop_handler_never_records_witness :
    nop_large_data_handler.running = true ∧
    nop_large_data_handler.partition_threshold_bytes = UINT64_MAX ∧
    nop_large_data_handler.rows_count_threshold = UINT64_MAX ∧
    maybe_record_large_partitions nop_large_data_handler (UINT64_MAX - 1) UINT64_MAX =
      some ({ size := false, rows := false }, nop_large_data_handler,
            [.ret { size := false, rows := false }]) :=
  nop_handler_never_records (UINT64_MAX - 1) UINT64_MAX
    (Nat.sub_le _ _) (Nat.le_refl _)

/-- An sstable whose four large-data stats carry the given above_threshold
flags (partition_size, row_size, cell_size, rows_in_partition). -/
def sstable_of_flags (p r c rip : Bool) : sstable :=
  { get_large_data_stat := fun t =>
      match t with
      | .partition_size => some ⟨p⟩
      | .row_size => some ⟨r⟩
      | .cell_size => some ⟨c⟩
      | .rows_in_partition => some ⟨rip⟩ }

/-- C4: while running, maybe_delete_large_data_entries issues a limiter-gated
delete against exactly the tracking tables whose category the table file
reports flagged (the partitions table covering the two partition-level
statistics), each at most once, and the returned completion is the when_all
join of exactly those deletes. -/
theorem maybe_delete_spec (h : large_data_handler) (sst : sstable)
    (hr : h.running = true) :
    maybe_delete_large_data_entries h sst = some (delete_fanout sst) ∧
    (∀ t, t ∈ delete_fanout sst ↔ category_flagged sst t = true) ∧
    (delete_fanout sst).Nodup := by
  refine ⟨by simp [maybe_delete_large_data_entries, hr], ?_, ?_⟩
  · intro t
    cases t <;>
      cases hb1 : stat_above_threshold sst .partition_size <;>
        cases hb2 : stat_above_threshold sst .rows_in_partition <;>
          cases hb3 : stat_above_threshold sst .row_size <;>
            cases hb4 : stat_above_threshold sst .cell_size <;>
              simp [delete_fanout, category_flagged, hb1, hb2, hb3, hb4]
  · cases hb1 : stat_above_threshold sst .partition_size <;>
      cases hb2 : stat_above_threshold sst .rows_in_partition <;>
        cases hb3 : stat_above_threshold sst .row_size <;>
          cases hb4 : stat_above_threshold sst .cell_size <;>
            simp [delete_fanout, hb1, hb2, hb3, hb4]

/-- C4 witness: a table file flagged for partitions and cells but not rows
yields exactly the two deletes against the partitions and cells tables. -/
theorem maybe_delete_spec_witness :
    (maybe_delete_large_data_entries sample_handler
        (sstable_of_flags true false true false) =
      some (delete_fanout (sstable_of_flags true false true false)) ∧
     (∀ t, t ∈ delete_fanout (sstable_of_flags true false true false) ↔
        category_flagged (sstable_of_flags true false true false) t = true) ∧
     (delete_fanout (sstable_of_flags true false true false)).Nodup) ∧
    delete_fanout (sstable_of_flags true false true false) =
      [tracking_table.LARGE_PARTITIONS, tracking_table.LARGE_CELLS] :=
  ⟨maybe_delete_spec sample_handler (sstable_of_flags true false true false) rfl, rfl⟩

/-- C10: the delete against the large-partitions tracking table is issued
exactly when the table file is flagged for partition_size or for
rows_in_partition; a file flagged only for rows_in_partition triggers exactly
one delete, against the partitions table and not the rows table. -/
theorem partitions_delete_covers_row_count (h : large_data_handler)
    (sst : sstable) (hr : h.running = true) :
    maybe_delete_large_data_entries h sst = some (delete_fanout sst) ∧
    (tracking_table.LARGE_PARTITIONS ∈ delete_fanout sst ↔
      (stat_above_threshold sst .partition_size = true ∨
       stat_above_threshold sst .rows_in_partition = true)) ∧
    (stat_above_threshold sst .rows_in_partition = true →
     stat_above_threshold sst .partition_size = false →
     stat_above_threshold sst .row_size = false →
     stat_above_threshold sst .cell_size = false →
     delete_fanout sst = [tracking_table.LARGE_PARTITIONS]) := by
  refine ⟨by simp [maybe_delete_large_data_entries, hr], ?_, ?_⟩
  · cases hb1 : stat_above_threshold sst .partition_size <;>
      cases hb2 : stat_above_threshold sst .rows_in_partition <;>
        cases hb3 : stat_above_threshold sst .row_size <;>
          cases hb4 : stat_above_threshold sst .cell_size <;>
            simp [delete_fanout, hb1, hb2, hb3, hb4]
  · intro h1 h2 h3 h4
    simp [delete_fanout, h1, h2, h3, h4]

/-- C10 witness: a table file flagged only for rows_in_partition yields the
single delete against the partitions table. -/
theorem partitions_delete_covers_row_count_witness :
    (maybe_delete_large_data_entries sample_handler
        (sstable_of_flags false false false true) =
      some (delete_fanout (sstable_of_flags false false false true)) ∧
     (tracking_table.LARGE_PARTITIONS ∈
        delete_fanout (sstable_of_flags false false false true) ↔
      (stat_above_threshold (sstable_of_flags false false false true)
          .partition_size = true ∨
       stat_above_threshold (sstable_of_flags false false false true)
          .rows_in_partition = true)) ∧
     (stat_above_threshold (sstable_of_flags false false false true)
          .rows_in_partition = true →
      stat_above_threshold (sstable_of_flags false false false true)
          .partition_size = false →
      stat_above_threshold (sstable_of_flags false false false true)
          .row_size = false →
      stat_above_threshold (sstable_of_flags false false false true)
          .cell_size = false →
      delete_fanout (sstable_of_flags false false false true) =
        [tracking_table.LARGE_PARTITIONS])) ∧
    delete_fanout (sstable_of_flags false false false true) =
      [tracking_table.LARGE_PARTITIONS] :=
  ⟨partitions_delete_covers_row_count sample_handler
      (sstable_of_flags false false false true) rfl, rfl⟩

/-- C5 counterexample: with the query facility unavailable, the delete path is
not a silent no-op completion — the source dereferences db::qctx without the
availability check that try_record performs, so the run is none rather than a
successful completion with zero queries, while try_record at the same input
completes with zero queries issued. -/
theorem delete_no_availability_check :
    delete_large_data_entries_run false "large_partitions" "ks" "cf" "sst1"
        (.ok ()) = none ∧
    try_record_run false "partition" "ks" "cf" "sst1" (.ok ()) =
      { completes_ok := true, queries_issued := 0, failure_logs := [] } :=
  ⟨rfl, rfl⟩

/-- C5 amended: delete_large_data_entries shares the persist path's
catch-log-and-continue failure handling but, unlike try_record, performs no
availability check: with the facility available both run the same logged
query; with it unavailable try_record is a silent no-op completion while the
delete dereferences the absent facility. -/
theorem delete_availability_spec (lt ks cf sn : String)
    (q : Except String Unit) :
    delete_large_data_entries_run true lt ks cf sn q =
      some (run_logged_query lt ks cf sn q) ∧
    delete_large_data_entries_run false lt ks cf sn q = none ∧
    try_record_run true lt ks cf sn q = run_logged_query lt ks cf sn q ∧
    try_record_run false lt ks cf sn q =
      { completes_ok := true, queries_issued := 0, failure_logs := [] } :=
  ⟨rfl, rfl, rfl, rfl⟩

/-- C6: a backend write or delete whose query fails is caught at the call:
the caller still observes success, the query was issued exactly once (never
retried), and exactly one failure warning log carrying the full context
(category or table, keyspace, table, table file, error) is produced; a
successful query produces no failure log. -/
theorem backend_failure_swallowed (lt ks cf sn e : String) :
    try_record_run true lt ks cf sn (.error e) =
      { completes_ok := true, queries_issued := 1,
        failure_logs := [⟨lt, ks, cf, sn, e⟩] } ∧
    delete_large_data_entries_run true lt ks cf sn (.error e) =
      some { completes_ok := true, queries_issued := 1,
             failure_logs := [⟨lt, ks, cf, sn, e⟩] } ∧
    try_record_run true lt ks cf sn (.ok ()) =
      { completes_ok := true, queries_issued := 1, failure_logs := [] } ∧
    delete_large_data_entries_run true lt ks cf sn (.ok ()) =
      some { completes_ok := true, queries_issued := 1, failure_logs := [] } :=
  ⟨rfl, rfl, rfl, rfl⟩

/-- C8 counterexample: for a large-row record with no clustering key the
persisted clustering_key field is null, not the sentinel text "static row";
the sentinel appears only as the description of the warning log line. -/
theorem record_large_rows_static_counterexample :
    (record_large_rows 5 none).1.clustering_key = none ∧
    (record_large_rows 5 none).1.clustering_key ≠ some "static row" ∧
    (record_large_rows 5 none).2 = "static row" := by
  refine ⟨rfl, ?_, rfl⟩
  simp [record_large_rows]

/-- C8 amended: for every large-row record with no clustering key, the
persisted fields are the category size together with a null clustering-key
value, while the sentinel "static row" description is used in the warning log
line in place of the clustering-key text. -/
theorem record_large_rows_static_spec (row_size : Nat) :
    record_large_rows row_size none =
      ({ row_size := toInt64 row_size, clustering_key := none }, "static row") :=
  rfl

/-- C9: every INSERT statement built by try_record — the partition, row and
cell records instantiate it with their category and extra field lists — ends
with USING TTL 2592000, a fixed retention of 30 days in seconds, after which
the entry expires without explicit deletion. -/
theorem try_record_ttl (large_table : String) (extra_fields : List String) :
    (∃ p, try_record_stmt large_table extra_fields =
      p ++ ") USING TTL 2592000") ∧
    (∃ p, try_record_stmt "partition" ["rows"] = p ++ ") USING TTL 2592000") ∧
    (∃ p, try_record_stmt "row" ["clustering_key"] =
      p ++ ") USING TTL 2592000") ∧
    (∃ p, try_record_stmt "cell" ["clustering_key", "column_name"] =
      p ++ ") USING TTL 2592000") ∧
    2592000 = 30 * 24 * 60 * 60 :=
  ⟨⟨_, rfl⟩, ⟨_, rfl⟩, ⟨_, rfl⟩, ⟨_, rfl⟩, rfl⟩

/-- C1: stop's flip-then-drain. On a stopped handler, stop completes
immediately as a stutter step. On a running handler, stop first flips the
running flag (consuming no capacity) and only then waits: its completion step
is enabled only when the limiter's full capacity is restored; consequently, in
every trace from the started state, every operation that acquired the limiter
before stop's completion has released it before the completion is observed,
and no operation invoked after stop begins ever passes the running assertion
(so none is issued to the backend — the assertion fails instead). -/
theorem stop_flip_then_drain (cap : Nat) :
    (∀ s : sys, s.running = false → step cap s .stopImmediate s) ∧
    (∀ s s' : sys, step cap s .stopBegin s' →
      s'.running = false ∧ s'.stopping = true ∧ s'.sem = s.sem) ∧
    (∀ s s' : sys, step cap s .stopComplete s' →
      s.stopping = true ∧ s.sem = cap) ∧
    (∀ (u : List action) (i : Nat) (v w : List action) (s2 : sys),
      steps cap (init cap) (u ++ .opAcquire i :: v ++ .stopComplete :: w) s2 →
      action.opRelease i ∈ v) ∧
    (∀ (u v : List action) (s2 : sys),
      steps cap (init cap) (u ++ .stopBegin :: v) s2 →
      ∀ i, action.opStart i ∉ v) := by
  refine ⟨?_, ?_, ?_, ?_, ?_⟩
  · exact fun s h => step.stop_immediate s h
  · intro s s' hst
    cases hst
    exact ⟨rfl, rfl, rfl⟩
  · intro s s' hst
    cases hst with
    | stop_complete h1 h2 => exact ⟨h1, h2⟩
  · intro u i v w s2 hst
    obtain ⟨sC, hux, hcw⟩ := steps_append_split hst
    obtain ⟨sA, hu, hmid⟩ := steps_append_split hux
    cases hmid
    rename_i sB hacq hv
    cases hcw
    rename_i sD hsc hw2
    have hsem : sC.sem = cap := by
      cases hsc with
      | stop_complete h1 h2 => exact h2
    have hinB : sem_inv cap sB := by
      have hinA : sem_inv cap sA := sem_inv_steps (sem_inv_init cap) hu
      exact sem_inv_step hinA hacq
    have hinC : sem_inv cap sC := sem_inv_steps hinB hv
    have hempty : sC.held = [] := by
      obtain ⟨hlen, _⟩ := hinC
      rw [hsem] at hlen
      have : sC.held.length = 0 := by omega
      exact List.eq_nil_of_length_eq_zero this
    have hmemB : i ∈ sB.held := by
      cases hacq with
      | op_acquire j hs hh hsem => exact List.mem_cons_self _ _
    refine release_mem_of_held hv hmemB ?_
    rw [hempty]
    exact List.not_mem_nil i
  · intro u v s2 hst
    obtain ⟨sA, hu, hrest⟩ := steps_append_split hst
    cases hrest
    rename_i sB hsb hv
    have hrB : sB.running = false := by
      cases hsb
      rfl
    exact fun i => (stopped_stays_stopped hv hrB).2 i

/-- C1 witness: with capacity 1, stop on a stopped handler is an immediate
stutter step, and in the concrete trace where operation 0 starts, acquires,
issues its backend call and releases before stop begins and completes, the
theorem yields that the release precedes stop's completion. -/
theorem stop_flip_then_drain_witness :
    step 1 { running := false, stopping := false, sem := 1, started := [], held := [] }
      .stopImmediate
      { running := false, stopping := false, sem := 1, started := [], held := [] } ∧
    action.opRelease 0 ∈
      [action.opBackend 0, action.opRelease 0, action.stopBegin] := by
  constructor
  · exact (stop_flip_then_drain 1).1 _ rfl
  · have htr : steps 1 (init 1)
        [action.opStart 0, action.opAcquire 0, action.opBackend 0,
         action.opRelease 0, action.stopBegin, action.stopComplete]
        { running := false, stopping := true, sem := 1, started := [0], held := [] } := by
      refine steps.cons _ _ _ _ _ (step.op_start _ 0 rfl) ?_
      refine steps.cons _ _ _ _ _ (step.op_acquire _ 0 ?_ ?_ ?_) ?_
      · simp [init]
      · simp [init]
      · simp [init]
      refine steps.cons _ _ _ _ _ (step.op_backend _ 0 ?_) ?_
      · simp [init]
      refine steps.cons _ _ _ _ _ (step.op_release _ 0 ?_) ?_
      · simp [init]
      refine steps.cons _ _ _ _ _ (step.stop_begin _ rfl) ?_
      refine steps.cons _ _ _ _ _ (step.stop_complete _ rfl rfl) ?_
      exact steps.nil _
    exact (stop_flip_then_drain 1).2.2.2.1 [action.opStart 0] 0
      [action.opBackend 0, action.opRelease 0, action.stopBegin] [] _ htr

end LargeData
